import Mathlib

/-!
Verification of the core of `src/app/utils.py` (solar-challenge dashboard):
the data loader `load_data` and the scorer `create_solar_score`.

Modelling conventions:
* pandas numeric values are embedded as exact rationals `ℚ`; the standard
  deviation (the one square root in the code) lives in `ℝ` via `Real.sqrt`.
* `pandas.Series.std()` uses `ddof = 1` (sample standard deviation), and
  `Series.quantile(0.7)` uses linear interpolation on the sorted values;
  both are reproduced below (`var1`, `quantile70`).
* Python exceptions are made explicit: `load_data`'s `try/except` becomes an
  `Except String` computation whose error is converted to the
  `(None, "Error loading file: ...")` pair, and the `KeyError` that
  `create_solar_score` hits when `scores['consistency']` was never assigned
  (the zero/NaN stddev branch) becomes the `.error .keyErrorConsistency`
  outcome.
* A cell of a raw CSV column is either a numeric value or a value that
  `pd.to_datetime` can parse (carried as its parsed calendar fields); the
  scorer, which per the design only ever sees clean numeric columns, works
  on a purely numeric frame.
-/

namespace SolarApp

/-- Calendar fields of one parsed datetime value (the parts of a pandas
`DatetimeIndex` the loader reads: `.hour`, `.month`, `.dayofweek`). -/
structure DT where
  hour : ℤ
  month : ℤ
  dayofweek : ℤ
deriving DecidableEq, Repr

/-- One cell of a raw CSV column: a numeric value, or a datetime-parseable
value carried together with its parse. -/
inductive Cell where
  | num (q : ℚ)
  | dt (d : DT)
deriving DecidableEq, Repr

/-- The result of `pd.read_csv`: column-oriented table of raw cells. -/
structure RawTable where
  nrows : ℕ
  cols : List (String × List Cell)
deriving DecidableEq, Repr

/-- The index of a dataframe: the synthetic `RangeIndex` produced by
`read_csv`, or a `DatetimeIndex` after `set_index` on a parsed column. -/
inductive Index where
  | range (n : ℕ)
  | datetime (ds : List DT)
deriving DecidableEq, Repr

/-- A dataframe after (possible) index promotion: an index plus the regular
columns. -/
structure Table where
  index : Index
  cols : List (String × List Cell)
deriving DecidableEq, Repr

/-- The argument of `load_data`, identified with the outcome of the
`pd.read_csv` call on it: either it parses to a raw table or `read_csv`
raises with some message. -/
inductive UploadedFile where
  | parsed (t : RawTable)
  | unreadable (msg : String)
deriving DecidableEq, Repr

/-- `timestamp_cols` from the source, in its exact priority order. -/
def timestamp_cols : List String :=
  ["Timestamp", "timestamp", "Date", "date", "Time", "time"]

/-- The column names of a raw table (`df.columns`). -/
def RawTable.colNames (t : RawTable) : List String := t.cols.map Prod.fst

/-- Column lookup (`df[name]` guarded by `name in df.columns`). -/
def findCol (cols : List (String × List Cell)) (name : String) :
    Option (List Cell) :=
  (cols.find? (fun p => p.1 == name)).map Prod.snd

/-- `pd.to_datetime` applied to a column: succeeds exactly when every cell
is datetime-parseable, returning the parsed values. -/
def to_datetime (cs : List Cell) : Except String (List DT) :=
  cs.mapM (fun c =>
    match c with
    | .dt d => .ok d
    | .num _ => .error "to_datetime could not parse column values")

/-- `df.index.hour`: on a `RangeIndex` this raises `AttributeError`. -/
def range_index_hour_error : String :=
  "RangeIndex object has no attribute hour"

/-- `df.index.hour` for the two index kinds. -/
def Index.hour : Index → Except String (List ℤ)
  | .range _ => .error range_index_hour_error
  | .datetime ds => .ok (ds.map DT.hour)

/-- `df.index.month` for the two index kinds. -/
def Index.month : Index → Except String (List ℤ)
  | .range _ => .error "RangeIndex object has no attribute month"
  | .datetime ds => .ok (ds.map DT.month)

/-- `df.index.dayofweek` for the two index kinds. -/
def Index.dayofweek : Index → Except String (List ℤ)
  | .range _ => .error "RangeIndex object has no attribute dayofweek"
  | .datetime ds => .ok (ds.map DT.dayofweek)

/-- `df[name] = cs`: replace the column if the name exists, else append it. -/
def setCol (cols : List (String × List Cell)) (name : String)
    (cs : List Cell) : List (String × List Cell) :=
  if cols.any (fun p => p.1 == name) then
    cols.map (fun p => if p.1 == name then (name, cs) else p)
  else
    cols ++ [(name, cs)]

/-- The loop `for col in timestamp_cols: if col in df.columns: ... break`:
the first candidate name that is one of the table's columns. -/
def chosen_timestamp (raw : RawTable) : Option String :=
  timestamp_cols.find? (fun c => raw.colNames.contains c)

/-- Timestamp detection and index promotion: parse the chosen column with
`to_datetime` and `set_index` it (which removes it from the regular
columns); with no match the synthetic `RangeIndex` stays. -/
def set_time_index (raw : RawTable) : Except String Table :=
  match chosen_timestamp raw with
  | some c =>
    match to_datetime ((findCol raw.cols c).getD []) with
    | .ok ds => .ok { index := .datetime ds
                      cols := raw.cols.filter (fun p => !(p.1 == c)) }
    | .error e => .error e
  | none => .ok { index := .range raw.nrows, cols := raw.cols }

/-- `len(df)`: the number of rows, i.e. the length of the index. -/
def Table.len (t : Table) : ℕ :=
  match t.index with
  | .range n => n
  | .datetime ds => ds.length

/-- The body of `load_data`'s `try` block: read the file, promote a
timestamp column if present, then derive `Hour`, `Month`, `DayOfWeek`
from the index (which raises on a `RangeIndex`). -/
def load_data_body (f : UploadedFile) : Except String Table :=
  match f with
  | .unreadable m => .error m
  | .parsed raw =>
    match set_time_index raw with
    | .error e => .error e
    | .ok t =>
      match t.index.hour, t.index.month, t.index.dayofweek with
      | .ok hs, .ok ms, .ok ds =>
        .ok { index := t.index
              cols := setCol
                        (setCol
                          (setCol t.cols "Hour" (hs.map (fun z => Cell.num z)))
                          "Month" (ms.map (fun z => Cell.num z)))
                        "DayOfWeek" (ds.map (fun z => Cell.num z)) }
      | .error e, _, _ => .error e
      | _, .error e, _ => .error e
      | _, _, .error e => .error e

/-- `load_data`: the `try/except` wrapper. Success returns the enriched
table and the row/column-count message; any exception is caught and turned
into the null table plus an error message embedding the detail. -/
def load_data (f : UploadedFile) : Option Table × String :=
  match load_data_body f with
  | .ok t =>
    (some t, "Successfully loaded " ++ toString t.len ++ " rows with " ++
      toString t.cols.length ++ " columns")
  | .error e => (none, "Error loading file: " ++ e)

/-! ### The scorer

`create_solar_score` only reads whole numeric columns (`GHI`, `RH`), so it
is embedded over a numeric view of the dataframe. -/

/-- A dataframe as the scorer sees it: named numeric columns. -/
def Frame : Type := List (String × List ℚ)

instance : DecidableEq Frame := by
  unfold Frame
  infer_instance

/-- `name in df.columns` combined with `df[name]` on a numeric frame. -/
def getCol (df : Frame) (name : String) : Option (List ℚ) :=
  (df.find? (fun p => p.1 == name)).map Prod.snd

/-- `Series.mean()`: arithmetic mean (0 on the empty series, standing in
for pandas' NaN — the NaN paths all end in the same KeyError outcome). -/
def mean (xs : List ℚ) : ℚ := xs.sum / (xs.length : ℚ)

/-- Sample variance with `ddof = 1`, the square of `Series.std()`; the
`n ≤ 1` cases give 0 (standing in for pandas' NaN, which like 0 fails the
`std > 0` test in the source). -/
def var1 (xs : List ℚ) : ℚ :=
  ((xs.map (fun x => (x - mean xs) ^ 2)).sum) / ((xs.length - 1 : ℕ) : ℚ)

/-- `Series.std()` (ddof = 1): square root of the sample variance. -/
noncomputable def std (xs : List ℚ) : ℝ := Real.sqrt (var1 xs)

/-- Linear interpolation step of `Series.quantile(0.7)` on an already
sorted list of length `n`: position `h = (n−1)·0.7`, between the values at
`⌊h⌋` and `⌊h⌋+1`. -/
def interp70 (s : List ℚ) (n : ℕ) : ℚ :=
  let h : ℚ := ((n : ℚ) - 1) * (7 / 10)
  let i : ℕ := (⌊h⌋).toNat
  let lo := s.getD i 0
  let hi := s.getD (i + 1) lo
  lo + (h - (i : ℚ)) * (hi - lo)

/-- `Series.quantile(0.7)` with the default linear interpolation. -/
def quantile70 (xs : List ℚ) : ℚ :=
  interp70 (List.insertionSort (· ≤ ·) xs) xs.length

/-- `(series > c).mean()`: the fraction of entries strictly above `c`. -/
def frac_gt (xs : List ℚ) (c : ℚ) : ℚ :=
  ((xs.filter (fun x => decide (c < x))).length : ℚ) / (xs.length : ℚ)

/-- The `normalized_scores` dict of the source. -/
structure Components where
  energy : ℚ
  consistency : ℝ
  reliability : ℚ
  weather : ℚ

/-- The `scores` dict of the source on the path where every key was
assigned. -/
structure RawScores where
  energy : ℚ
  consistency : ℝ
  reliability : ℚ
  weather : ℚ

/-- The record returned by `create_solar_score`. -/
structure ScoreRecord where
  total_score : ℝ
  components : Components
  raw_scores : RawScores

/-- The exception `create_solar_score` can raise: the lookup
`scores['consistency']` when that key was never assigned. -/
inductive ScoreErr where
  | keyErrorConsistency
deriving DecidableEq, Repr

/-- `energy_score = df['GHI'].mean()`. -/
def energy_raw (ghi : List ℚ) : ℚ := mean ghi

/-- `consistency = (1 - std/mean) * 100`, floored at 0 — the value assigned
on the `std > 0` branch. -/
noncomputable def consistency_raw (ghi : List ℚ) : ℝ :=
  max ((1 - std ghi / ((mean ghi : ℚ) : ℝ)) * 100) 0

/-- `reliability = (df['GHI'] > df['GHI'].quantile(0.7)).mean() * 100`. -/
def reliability_raw (ghi : List ℚ) : ℚ :=
  frac_gt ghi (quantile70 ghi) * 100

/-- `weather_score`: 100, minus `0.5` times the percentage of rows with
`RH > 85` when an `RH` column exists; then floored at 0. -/
def weather_raw (df : Frame) : ℚ :=
  max (match getCol df "RH" with
       | some rh => 100 - frac_gt rh 85 * 100 * (1 / 2)
       | none => 100) 0

/-- The record built on the success path of `create_solar_score`: the
normalized components (with the adaptive ceiling `max(energy_score, 500)`),
their total, and the raw scores. -/
noncomputable def mkScore (df : Frame) (ghi : List ℚ) : ScoreRecord :=
  { total_score :=
      ((energy_raw ghi / max (energy_raw ghi) 500 * 40 : ℚ) : ℝ) +
        consistency_raw ghi / 100 * 30 +
        ((reliability_raw ghi / 100 * 20 : ℚ) : ℝ) +
        ((weather_raw df / 100 * 10 : ℚ) : ℝ)
    components :=
      { energy := energy_raw ghi / max (energy_raw ghi) 500 * 40
        consistency := consistency_raw ghi / 100 * 30
        reliability := reliability_raw ghi / 100 * 20
        weather := weather_raw df / 100 * 10 }
    raw_scores :=
      { energy := energy_raw ghi
        consistency := consistency_raw ghi
        reliability := reliability_raw ghi
        weather := weather_raw df } }

open scoped Classical in
/-- `create_solar_score`.  With no `GHI` column it returns `None`
(`.ok none`).  Otherwise, when `df['GHI'].std() > 0` the consistency key is
assigned and the normalization succeeds, returning the score record; when
the test fails (zero or NaN standard deviation) the key is never assigned
and the normalization line `scores['consistency']` raises `KeyError`,
modelled as the `.error` outcome. -/
noncomputable def create_solar_score (df : Frame) :
    Except ScoreErr (Option ScoreRecord) :=
  match getCol df "GHI" with
  | none => .ok none
  | some ghi =>
    if 0 < std ghi then .ok (some (mkScore df ghi))
    else .error .keyErrorConsistency

/-! ### General lemmas about the embedded operations -/

/-- Inversion for the success path: a score record comes out exactly when a
`GHI` column exists and its standard deviation is positive, and the record
is the one built by `mkScore`. -/
lemma create_ok_some_iff (df : Frame) (r : ScoreRecord) :
    create_solar_score df = .ok (some r) ↔
      ∃ ghi, getCol df "GHI" = some ghi ∧ 0 < std ghi ∧ r = mkScore df ghi := by
  cases hg : getCol df "GHI" with
  | none => simp [create_solar_score, hg]
  | some ghi =>
    by_cases h : 0 < std ghi
    · simp only [create_solar_score, hg, if_pos h, Except.ok.injEq, Option.some.injEq]
      constructor
      · rintro rfl
        exact ⟨ghi, rfl, h, rfl⟩
      · rintro ⟨g, hgeq, _, rfl⟩
        obtain rfl : ghi = g := by simpa using hgeq
        rfl
    · simp only [create_solar_score, hg, if_neg h]
      constructor
      · intro hcon
        exact absurd hcon (by simp)
      · rintro ⟨g, hgeq, hpos, _⟩
        obtain rfl : ghi = g := by simpa using hgeq
        exact absurd hpos h

/-- Inversion for the exception path: the missing-key error happens exactly
when a `GHI` column exists whose standard deviation is not positive. -/
lemma create_err_iff (df : Frame) :
    create_solar_score df = .error .keyErrorConsistency ↔
      ∃ ghi, getCol df "GHI" = some ghi ∧ ¬ 0 < std ghi := by
  cases hg : getCol df "GHI" with
  | none => simp [create_solar_score, hg]
  | some ghi =>
    by_cases h : 0 < std ghi
    · simp only [create_solar_score, hg, if_pos h]
      constructor
      · intro hcon
        exact absurd hcon (by simp)
      · rintro ⟨g, hgeq, hneg⟩
        obtain rfl : ghi = g := by simpa using hgeq
        exact absurd h hneg
    · simp only [create_solar_score, hg, if_neg h]
      simp only [true_iff]
      exact ⟨ghi, rfl, h⟩

/-! ### Quantile and fraction lemmas -/

lemma frac_gt_nonneg (xs : List ℚ) (c : ℚ) : 0 ≤ frac_gt xs c := by
  unfold frac_gt
  positivity

lemma frac_gt_le_one (xs : List ℚ) (c : ℚ) : frac_gt xs c ≤ 1 := by
  unfold frac_gt
  rcases Nat.eq_zero_or_pos xs.length with h | h
  · simp [h]
  · rw [div_le_one (by exact_mod_cast h)]
    exact_mod_cast List.length_filter_le _ xs

lemma interp_index_le (n : ℕ) (hn : 1 ≤ n) :
    (⌊((n : ℚ) - 1) * (7 / 10)⌋).toNat < n := by
  have h0 : (0 : ℚ) ≤ ((n : ℚ) - 1) := by
    have : (1 : ℚ) ≤ (n : ℚ) := by exact_mod_cast hn
    linarith
  have hle : ((n : ℚ) - 1) * (7 / 10) ≤ (n : ℚ) - 1 := by nlinarith
  have hfl : ⌊((n : ℚ) - 1) * (7 / 10)⌋ ≤ ⌊((n : ℚ) - 1)⌋ := Int.floor_le_floor hle
  have : ⌊((n : ℚ) - 1)⌋ = (n : ℤ) - 1 := by
    rw [show ((n : ℚ) - 1) = (((n : ℤ) - 1 : ℤ) : ℚ) by push_cast; ring]
    exact Int.floor_intCast _
  omega

lemma interp_gamma_nonneg (n : ℕ) (hn : 1 ≤ n) :
    (0 : ℚ) ≤ ((n : ℚ) - 1) * (7 / 10) - ((⌊((n : ℚ) - 1) * (7 / 10)⌋).toNat : ℚ) := by
  have h0 : (0 : ℚ) ≤ ((n : ℚ) - 1) * (7 / 10) := by
    have : (1 : ℚ) ≤ (n : ℚ) := by exact_mod_cast hn
    nlinarith
  have hfl0 : 0 ≤ ⌊((n : ℚ) - 1) * (7 / 10)⌋ := Int.floor_nonneg.mpr h0
  have hc : ((⌊((n : ℚ) - 1) * (7 / 10)⌋).toNat : ℤ) = ⌊((n : ℚ) - 1) * (7 / 10)⌋ :=
    Int.toNat_of_nonneg hfl0
  have hcast : ((⌊((n : ℚ) - 1) * (7 / 10)⌋).toNat : ℚ) = ((⌊((n : ℚ) - 1) * (7 / 10)⌋ : ℤ) : ℚ) := by
    exact_mod_cast congrArg (fun z : ℤ => (z : ℚ)) hc
  rw [hcast]
  have := Int.floor_le (((n : ℚ) - 1) * (7 / 10))
  linarith

lemma head_le_interp70 (s : List ℚ) (n : ℕ) (hn : 1 ≤ n)
    (hlen : s.length = n) (hsort : List.Sorted (· ≤ ·) s) (hslen : 0 < s.length) :
    s.get ⟨0, hslen⟩ ≤ interp70 s n := by
  unfold interp70
  set i : ℕ := (⌊((n : ℚ) - 1) * (7 / 10)⌋).toNat with hidef
  have hilt : i < n := interp_index_le n hn
  have hilt' : i < s.length := by omega
  have h0i : s.get ⟨0, hslen⟩ ≤ s.get ⟨i, hilt'⟩ :=
    hsort.rel_get_of_le (by exact Fin.mk_le_mk.mpr (Nat.zero_le i))
  have hlo : s.getD i 0 = s.get ⟨i, hilt'⟩ := List.getD_eq_getElem _ _ _
  have hhi : s.getD i 0 ≤ s.getD (i + 1) (s.getD i 0) := by
    rcases Nat.lt_or_ge (i + 1) s.length with h | h
    · rw [hlo, List.getD_eq_getElem _ _ h]
      exact hsort.rel_get_of_le (by exact Fin.mk_le_mk.mpr (Nat.le_succ i))
    · rw [List.getD_eq_default _ _ h]
  have hγ : (0 : ℚ) ≤ ((n : ℚ) - 1) * (7 / 10) - (i : ℚ) := interp_gamma_nonneg n hn
  nlinarith [h0i, hhi]

lemma exists_mem_le_quantile70 (xs : List ℚ) (hne : xs ≠ []) :
    ∃ m ∈ xs, m ≤ quantile70 xs := by
  have hperm : List.Perm (List.insertionSort (· ≤ ·) xs) xs :=
    List.perm_insertionSort _ xs
  have hsort : List.Sorted (· ≤ ·) (List.insertionSort (· ≤ ·) xs) :=
    List.sorted_insertionSort _ xs
  have hlen : (List.insertionSort (· ≤ ·) xs).length = xs.length := hperm.length_eq
  have hxs : 0 < xs.length := List.length_pos.mpr hne
  have hslen : 0 < (List.insertionSort (· ≤ ·) xs).length := by omega
  refine ⟨(List.insertionSort (· ≤ ·) xs).get ⟨0, hslen⟩,
    hperm.mem_iff.mp (List.get_mem _ _ _), ?_⟩
  exact head_le_interp70 _ _ hxs hlen hsort hslen


/-- Let-free unfolding of the interpolation step. -/
lemma interp70_eq (s : List ℚ) (n : ℕ) :
    interp70 s n =
      s.getD ((⌊((n : ℚ) - 1) * (7 / 10)⌋).toNat) 0 +
        (((n : ℚ) - 1) * (7 / 10) - ((⌊((n : ℚ) - 1) * (7 / 10)⌋).toNat : ℚ)) *
          (s.getD ((⌊((n : ℚ) - 1) * (7 / 10)⌋).toNat + 1)
              (s.getD ((⌊((n : ℚ) - 1) * (7 / 10)⌋).toNat) 0) -
            s.getD ((⌊((n : ℚ) - 1) * (7 / 10)⌋).toNat) 0) := rfl

lemma length_filter_succ_le {p : ℚ → Bool} {xs : List ℚ} {m : ℚ}
    (hm : m ∈ xs) (hpm : p m = false) : (xs.filter p).length + 1 ≤ xs.length := by
  induction xs with
  | nil => cases hm
  | cons a l ih =>
    rcases List.mem_cons.mp hm with rfl | hml
    · rw [List.filter_cons_of_neg (by simp [hpm])]
      simpa using Nat.succ_le_succ (List.length_filter_le p l)
    · cases hpa : p a with
      | true =>
        rw [List.filter_cons_of_pos hpa]
        simpa using ih hml
      | false =>
        rw [List.filter_cons_of_neg (by simp [hpa])]
        exact le_trans (ih hml) (Nat.le_succ _)

lemma reliability_raw_le (xs : List ℚ) (hne : xs ≠ []) :
    reliability_raw xs ≤ 100 * ((xs.length : ℚ) - 1) / (xs.length : ℚ) := by
  obtain ⟨m, hm, hmle⟩ := exists_mem_le_quantile70 xs hne
  have hn : 0 < xs.length := List.length_pos.mpr hne
  have hcount : (xs.filter (fun x => decide (quantile70 xs < x))).length + 1 ≤ xs.length :=
    length_filter_succ_le hm (by simp [decide_eq_false_iff_not, not_lt.mpr hmle])
  have hnq : (0 : ℚ) < (xs.length : ℚ) := by exact_mod_cast hn
  have hcastc : ((xs.filter (fun x => decide (quantile70 xs < x))).length : ℚ) ≤ (xs.length : ℚ) - 1 := by
    have h2 : (((xs.filter (fun x => decide (quantile70 xs < x))).length + 1 : ℕ) : ℚ) ≤ ((xs.length : ℕ) : ℚ) := by
      exact_mod_cast hcount
    push_cast at h2
    linarith
  unfold reliability_raw frac_gt
  rw [div_mul_eq_mul_div, mul_comm]
  rw [div_le_div_iff₀ hnq hnq]
  nlinarith [hcastc]

lemma reliability_raw_lt_100 (xs : List ℚ) (hne : xs ≠ []) :
    reliability_raw xs < 100 := by
  have h := reliability_raw_le xs hne
  have hn : 0 < xs.length := List.length_pos.mpr hne
  have hnq : (0 : ℚ) < (xs.length : ℚ) := by exact_mod_cast hn
  have hlt : 100 * ((xs.length : ℚ) - 1) / (xs.length : ℚ) < 100 := by
    rw [div_lt_iff₀ hnq]
    nlinarith
  linarith

lemma mean_replicate (n : ℕ) (v : ℚ) (hn : 1 ≤ n) :
    mean (List.replicate n v) = v := by
  unfold mean
  rw [List.sum_replicate, List.length_replicate]
  have hnq : ((n : ℚ)) ≠ 0 := Nat.cast_ne_zero.mpr (by omega)
  rw [nsmul_eq_mul]
  field_simp

lemma var1_replicate (n : ℕ) (v : ℚ) (hn : 1 ≤ n) :
    var1 (List.replicate n v) = 0 := by
  unfold var1
  rw [mean_replicate n v hn, List.map_replicate]
  simp

lemma quantile70_replicate (n : ℕ) (v : ℚ) (hn : 1 ≤ n) :
    quantile70 (List.replicate n v) = v := by
  unfold quantile70
  rw [List.length_replicate, interp70_eq]
  have hlen : (List.insertionSort (· ≤ ·) (List.replicate n v)).length = n := by
    rw [List.length_insertionSort, List.length_replicate]
  have hmem : ∀ x ∈ List.insertionSort (· ≤ ·) (List.replicate n v), x = v := by
    intro x hx
    exact List.eq_of_mem_replicate ((List.mem_insertionSort _).mp hx)
  set s := List.insertionSort (· ≤ ·) (List.replicate n v) with hs
  set i : ℕ := (⌊((n : ℚ) - 1) * (7 / 10)⌋).toNat with hidef
  have hilt : i < n := interp_index_le n hn
  have hlo : s.getD i 0 = v := by
    rw [List.getD_eq_getElem _ _ (by omega)]
    exact hmem _ (List.getElem_mem _)
  have hhi : s.getD (i + 1) (s.getD i 0) = v := by
    rcases Nat.lt_or_ge (i + 1) s.length with h | h
    · rw [List.getD_eq_getElem _ _ h]
      exact hmem _ (List.getElem_mem _)
    · rw [List.getD_eq_default _ _ h]
      exact hlo
  rw [hhi, hlo]
  ring

lemma frac_gt_self_replicate (n : ℕ) (v : ℚ) :
    frac_gt (List.replicate n v) v = 0 := by
  unfold frac_gt
  rw [List.filter_eq_nil_iff.mpr (fun x hx => by
    have hxv := List.eq_of_mem_replicate hx
    simp [hxv])]
  simp


lemma mean_nonneg_of_nonneg (xs : List ℚ) (h : ∀ x ∈ xs, 0 ≤ x) : 0 ≤ mean xs := by
  unfold mean
  exact div_nonneg (List.sum_nonneg h) (by positivity)

lemma weather_raw_nonneg (df : Frame) : 0 ≤ weather_raw df := le_max_right _ _

lemma weather_raw_le_100 (df : Frame) : weather_raw df ≤ 100 := by
  unfold weather_raw
  apply max_le _ (by norm_num)
  cases h : getCol df "RH" with
  | none => simp
  | some rh =>
    simp only []
    have := frac_gt_nonneg rh 85
    nlinarith

lemma weather_raw_of_none (df : Frame) (h : getCol df "RH" = none) :
    weather_raw df = 100 := by
  unfold weather_raw
  rw [h]
  norm_num

lemma weather_raw_of_some (df : Frame) (rh : List ℚ) (h : getCol df "RH" = some rh) :
    weather_raw df = max (100 - frac_gt rh 85 * 100 * (1 / 2)) 0 := by
  unfold weather_raw
  rw [h]

lemma frac_gt_eq_zero_of_all_le (xs : List ℚ) (c : ℚ) (h : ∀ x ∈ xs, x ≤ c) :
    frac_gt xs c = 0 := by
  unfold frac_gt
  rw [List.filter_eq_nil_iff.mpr (fun x hx => by simp [not_lt.mpr (h x hx)])]
  simp

lemma consistency_raw_nonneg (ghi : List ℚ) : 0 ≤ consistency_raw ghi :=
  le_max_right _ _

lemma consistency_raw_le_100 (ghi : List ℚ) (h : 0 ≤ mean ghi) :
    consistency_raw ghi ≤ 100 := by
  unfold consistency_raw
  apply max_le _ (by norm_num)
  have hstd : (0 : ℝ) ≤ std ghi := Real.sqrt_nonneg _
  have hm : (0 : ℝ) ≤ ((mean ghi : ℚ) : ℝ) := by exact_mod_cast h
  have hdiv : (0 : ℝ) ≤ std ghi / ((mean ghi : ℚ) : ℝ) := div_nonneg hstd hm
  nlinarith

lemma energy_weighted_nonneg (ghi : List ℚ) (h : 0 ≤ mean ghi) :
    0 ≤ energy_raw ghi / max (energy_raw ghi) 500 * 40 := by
  unfold energy_raw
  have hden : (0 : ℚ) ≤ max (mean ghi) 500 := le_trans (by norm_num) (le_max_right _ _)
  positivity

lemma energy_weighted_le_40 (ghi : List ℚ) :
    energy_raw ghi / max (energy_raw ghi) 500 * 40 ≤ 40 := by
  unfold energy_raw
  have hden : (0 : ℚ) < max (mean ghi) 500 := lt_of_lt_of_le (by norm_num) (le_max_right _ _)
  have hle : mean ghi / max (mean ghi) 500 ≤ 1 := by
    rw [div_le_one hden]
    exact le_max_left _ _
  nlinarith [hle]

/-- C1: for every frame on which `create_solar_score` returns a record, the
four weighted component values (`energy`, `consistency`, `reliability`,
`weather`) sum exactly to the returned `total_score` (exact equality, hence
in particular within the stated `1e-9` tolerance). -/
theorem C1_components_sum_to_total (df : Frame) (r : ScoreRecord)
    (hr : create_solar_score df = .ok (some r)) :
    ((r.components.energy : ℚ) : ℝ) + r.components.consistency +
        ((r.components.reliability : ℚ) : ℝ) + ((r.components.weather : ℚ) : ℝ) =
      r.total_score := by
  obtain ⟨ghi, -, -, rfl⟩ := (create_ok_some_iff df r).mp hr
  rfl

/-- Witness for C1 at the frame `[("GHI", [0, 1, 2])]`. -/
theorem C1_components_sum_to_total_witness :
    create_solar_score [("GHI", [(0 : ℚ), 1, 2])] =
        .ok (some (mkScore [("GHI", [(0 : ℚ), 1, 2])] [0, 1, 2])) ∧
      (((mkScore [("GHI", [(0 : ℚ), 1, 2])] [0, 1, 2]).components.energy : ℚ) : ℝ) +
          (mkScore [("GHI", [(0 : ℚ), 1, 2])] [0, 1, 2]).components.consistency +
          (((mkScore [("GHI", [(0 : ℚ), 1, 2])] [0, 1, 2]).components.reliability : ℚ) : ℝ) +
          (((mkScore [("GHI", [(0 : ℚ), 1, 2])] [0, 1, 2]).components.weather : ℚ) : ℝ) =
        (mkScore [("GHI", [(0 : ℚ), 1, 2])] [0, 1, 2]).total_score := by
  have hstd : std [(0 : ℚ), 1, 2] = 1 := by
    have hv : var1 [(0 : ℚ), 1, 2] = 1 := by norm_num [var1, mean]
    rw [std, hv]; norm_num
  have h : create_solar_score [("GHI", [(0 : ℚ), 1, 2])] =
      .ok (some (mkScore [("GHI", [(0 : ℚ), 1, 2])] [0, 1, 2])) :=
    (create_ok_some_iff _ _).mpr ⟨[0, 1, 2], rfl, by rw [hstd]; norm_num, rfl⟩
  exact ⟨h, C1_components_sum_to_total _ _ h⟩

/-- C2: a frame with no `GHI` column gets the null "no score" result — the
function returns `None` rather than raising or producing an error value. -/
theorem C2_no_ghi_returns_none (df : Frame) (h : getCol df "GHI" = none) :
    create_solar_score df = .ok none := by
  unfold create_solar_score
  rw [h]

/-- Witness for C2 at a frame with only an `RH` column. -/
theorem C2_no_ghi_returns_none_witness :
    getCol [("RH", [(50 : ℚ)])] "GHI" = none ∧
      create_solar_score [("RH", [(50 : ℚ)])] = .ok none :=
  ⟨rfl, C2_no_ghi_returns_none _ rfl⟩


/-- C3 counterexample: on the clean numeric constant table
`GHI = [5, 5]` the standard deviation is exactly zero, and
`create_solar_score` does not complete normally — it raises the `KeyError`
for the never-assigned `consistency` key instead of returning a record. -/
theorem C3_zero_std_raises_counterexample :
    create_solar_score [("GHI", [(5 : ℚ), 5])] = .error .keyErrorConsistency := by
  have hstd : std [(5 : ℚ), 5] = 0 := by
    have hv : var1 [(5 : ℚ), 5] = 0 := by norm_num [var1, mean]
    rw [std, hv]; norm_num
  exact (create_err_iff _).mpr ⟨[5, 5], rfl, by rw [hstd]; exact lt_irrefl 0⟩

/-- C3 (amended): on a table with a clean numeric `GHI` column,
`create_solar_score` completes normally exactly on the positive-stddev
branch; when the standard deviation is exactly zero the consistency key is
never assigned and the normalization lookup raises a `KeyError`, so no
record (with or without a consistency entry) is returned. -/
theorem C3_amended_completes_iff_std_pos (df : Frame) (ghi : List ℚ)
    (hg : getCol df "GHI" = some ghi) :
    (0 < std ghi → create_solar_score df = .ok (some (mkScore df ghi))) ∧
      (std ghi = 0 → create_solar_score df = .error .keyErrorConsistency) := by
  constructor
  · intro hpos
    exact (create_ok_some_iff df _).mpr ⟨ghi, hg, hpos, rfl⟩
  · intro hz
    exact (create_err_iff df).mpr ⟨ghi, hg, by rw [hz]; exact lt_irrefl 0⟩

/-- Witness for the amended C3 at `GHI = [2, 3, 4]` (stddev 1 > 0). -/
theorem C3_amended_completes_iff_std_pos_witness :
    getCol [("GHI", [(2 : ℚ), 3, 4])] "GHI" = some [2, 3, 4] ∧
      0 < std [(2 : ℚ), 3, 4] ∧
      create_solar_score [("GHI", [(2 : ℚ), 3, 4])] =
        .ok (some (mkScore [("GHI", [(2 : ℚ), 3, 4])] [2, 3, 4])) := by
  have hstd : std [(2 : ℚ), 3, 4] = 1 := by
    have hv : var1 [(2 : ℚ), 3, 4] = 1 := by norm_num [var1, mean]
    rw [std, hv]; norm_num
  have hpos : 0 < std [(2 : ℚ), 3, 4] := by rw [hstd]; norm_num
  exact ⟨rfl, hpos,
    (C3_amended_completes_iff_std_pos [("GHI", [(2 : ℚ), 3, 4])] [2, 3, 4] rfl).1 hpos⟩

/-- C4 counterexample: on the constant table `GHI = [7, 7, 7]` (constant
value `v = 7 > 0`) `create_solar_score` yields no record at all — the
zero-stddev path raises the consistency `KeyError` — so in particular it
does not yield reliability raw 0 together with an energy-weighted value. -/
theorem C4_constant_ghi_counterexample :
    create_solar_score [("GHI", List.replicate 3 (7 : ℚ))] =
      .error .keyErrorConsistency := by
  have hstd : std (List.replicate 3 (7 : ℚ)) = 0 := by
    rw [std, var1_replicate 3 7 (by norm_num)]; norm_num
  exact (create_err_iff _).mpr ⟨List.replicate 3 7, rfl, by rw [hstd]; exact lt_irrefl 0⟩

/-- C4 (amended): for a constant `GHI` column of value `v > 0` with `n ≥ 1`
rows, the reliability raw value the scorer computes is 0 (the strict `>`
comparison against the 70th percentile, which equals `v`, matches no row),
and the energy-weighted value it computes is `v / max(v,500) × 40` — which
coincides with the claimed `min(v,500)/max(v,500) × 40` whenever `v ≤ 500`;
but `create_solar_score` itself raises the consistency `KeyError` (stddev
is zero) instead of returning these in a record. -/
theorem C4_amended_constant_ghi (v : ℚ) (n : ℕ) (_hv : 0 < v) (hn : 1 ≤ n) :
    reliability_raw (List.replicate n v) = 0 ∧
      energy_raw (List.replicate n v) / max (energy_raw (List.replicate n v)) 500 * 40 =
        v / max v 500 * 40 ∧
      (v ≤ 500 →
        energy_raw (List.replicate n v) / max (energy_raw (List.replicate n v)) 500 * 40 =
          min v 500 / max v 500 * 40) ∧
      create_solar_score [("GHI", List.replicate n v)] = .error .keyErrorConsistency := by
  have hmean : energy_raw (List.replicate n v) = v := by
    unfold energy_raw
    exact mean_replicate n v hn
  refine ⟨?_, ?_, ?_, ?_⟩
  · unfold reliability_raw
    rw [quantile70_replicate n v hn, frac_gt_self_replicate]
    ring
  · rw [hmean]
  · intro hle
    rw [hmean, min_eq_left hle]
  · have hstd : std (List.replicate n v) = 0 := by
      rw [std, var1_replicate n v hn]; norm_num
    exact (create_err_iff _).mpr ⟨List.replicate n v, rfl, by rw [hstd]; exact lt_irrefl 0⟩

/-- Witness for the amended C4 at `v = 7`, `n = 3`. -/
theorem C4_amended_constant_ghi_witness :
    (0 : ℚ) < 7 ∧ 1 ≤ 3 ∧
      reliability_raw (List.replicate 3 (7 : ℚ)) = 0 ∧
      create_solar_score [("GHI", List.replicate 3 (7 : ℚ))] =
        .error .keyErrorConsistency := by
  have h := C4_amended_constant_ghi 7 3 (by norm_num) (by norm_num)
  exact ⟨by norm_num, by norm_num, h.1, h.2.2.2⟩


/-- C8: for every frame the scorer turns into a record, the weather raw
value lies in `[0, 100]`; it equals 100 when the `RH` column is absent or
every `RH` value is at most 85, and with an `RH` column present it equals
`100 − 0.5 × (percentage of rows with RH > 85)` floored at 0. -/
theorem C8_weather_raw (df : Frame) (r : ScoreRecord)
    (hr : create_solar_score df = .ok (some r)) :
    (0 ≤ r.raw_scores.weather ∧ r.raw_scores.weather ≤ 100) ∧
      (getCol df "RH" = none → r.raw_scores.weather = 100) ∧
      (∀ rh, getCol df "RH" = some rh → (∀ x ∈ rh, x ≤ 85) →
        r.raw_scores.weather = 100) ∧
      (∀ rh, getCol df "RH" = some rh →
        r.raw_scores.weather = max (100 - frac_gt rh 85 * 100 * (1 / 2)) 0) := by
  obtain ⟨ghi, -, -, rfl⟩ := (create_ok_some_iff df r).mp hr
  have hw : (mkScore df ghi).raw_scores.weather = weather_raw df := rfl
  refine ⟨⟨?_, ?_⟩, ?_, ?_, ?_⟩
  · rw [hw]; exact weather_raw_nonneg df
  · rw [hw]; exact weather_raw_le_100 df
  · intro h
    rw [hw]; exact weather_raw_of_none df h
  · intro rh hrh hall
    rw [hw, weather_raw_of_some df rh hrh,
      frac_gt_eq_zero_of_all_le rh 85 hall]
    norm_num
  · intro rh hrh
    rw [hw]; exact weather_raw_of_some df rh hrh

/-- Witness for C8 at `GHI = [0, 1, 2]`, `RH = [90, 80]` (one row above the
85 threshold). -/
theorem C8_weather_raw_witness :
    create_solar_score [("GHI", [(0 : ℚ), 1, 2]), ("RH", [90, 80])] =
        .ok (some (mkScore [("GHI", [(0 : ℚ), 1, 2]), ("RH", [90, 80])] [0, 1, 2])) ∧
      (0 ≤ (mkScore [("GHI", [(0 : ℚ), 1, 2]), ("RH", [90, 80])] [0, 1, 2]).raw_scores.weather ∧
        (mkScore [("GHI", [(0 : ℚ), 1, 2]), ("RH", [90, 80])] [0, 1, 2]).raw_scores.weather ≤ 100) ∧
      (mkScore [("GHI", [(0 : ℚ), 1, 2]), ("RH", [90, 80])] [0, 1, 2]).raw_scores.weather =
        max (100 - frac_gt [90, 80] 85 * 100 * (1 / 2)) 0 := by
  have hstd : std [(0 : ℚ), 1, 2] = 1 := by
    have hv : var1 [(0 : ℚ), 1, 2] = 1 := by norm_num [var1, mean]
    rw [std, hv]; norm_num
  have h : create_solar_score [("GHI", [(0 : ℚ), 1, 2]), ("RH", [90, 80])] =
      .ok (some (mkScore [("GHI", [(0 : ℚ), 1, 2]), ("RH", [90, 80])] [0, 1, 2])) :=
    (create_ok_some_iff _ _).mpr ⟨[0, 1, 2], rfl, by rw [hstd]; norm_num, rfl⟩
  have hc := C8_weather_raw _ _ h
  exact ⟨h, hc.1, hc.2.2.2 [90, 80] rfl⟩

/-- C9: on a frame whose `GHI` values are all non-negative (and which the
scorer accepts, i.e. positive stddev), every weighted component of the
returned record is non-negative and bounded by its declared weight ceiling:
energy ≤ 40, consistency ≤ 30, reliability ≤ 20, weather ≤ 10. -/
theorem C9_component_ceilings (df : Frame) (ghi : List ℚ) (r : ScoreRecord)
    (hg : getCol df "GHI" = some ghi) (hpos : ∀ x ∈ ghi, 0 ≤ x)
    (hr : create_solar_score df = .ok (some r)) :
    (0 ≤ r.components.energy ∧ r.components.energy ≤ 40) ∧
      (0 ≤ r.components.consistency ∧ r.components.consistency ≤ 30) ∧
      (0 ≤ r.components.reliability ∧ r.components.reliability ≤ 20) ∧
      (0 ≤ r.components.weather ∧ r.components.weather ≤ 10) := by
  obtain ⟨g, hg2, -, rfl⟩ := (create_ok_some_iff df r).mp hr
  obtain rfl : ghi = g := by rw [hg] at hg2; exact Option.some_injective _ hg2
  have hmean : 0 ≤ mean ghi := mean_nonneg_of_nonneg ghi hpos
  refine ⟨⟨?_, ?_⟩, ⟨?_, ?_⟩, ⟨?_, ?_⟩, ⟨?_, ?_⟩⟩
  · exact energy_weighted_nonneg ghi hmean
  · exact energy_weighted_le_40 ghi
  · show (0 : ℝ) ≤ consistency_raw ghi / 100 * 30
    have := consistency_raw_nonneg ghi
    positivity
  · show consistency_raw ghi / 100 * 30 ≤ 30
    have := consistency_raw_le_100 ghi hmean
    nlinarith
  · show (0 : ℚ) ≤ reliability_raw ghi / 100 * 20
    have h0 : 0 ≤ reliability_raw ghi := by
      unfold reliability_raw
      have := frac_gt_nonneg ghi (quantile70 ghi)
      nlinarith
    positivity
  · show reliability_raw ghi / 100 * 20 ≤ 20
    have h1 : reliability_raw ghi ≤ 100 := by
      unfold reliability_raw
      have := frac_gt_le_one ghi (quantile70 ghi)
      nlinarith
    nlinarith
  · show (0 : ℚ) ≤ weather_raw df / 100 * 10
    have := weather_raw_nonneg df
    positivity
  · show weather_raw df / 100 * 10 ≤ 10
    have := weather_raw_le_100 df
    nlinarith

/-- Witness for C9 at `GHI = [1, 2, 3]`, `RH = [90]`. -/
theorem C9_component_ceilings_witness :
    getCol [("GHI", [(1 : ℚ), 2, 3]), ("RH", [90])] "GHI" = some [1, 2, 3] ∧
      (∀ x ∈ [(1 : ℚ), 2, 3], 0 ≤ x) ∧
      create_solar_score [("GHI", [(1 : ℚ), 2, 3]), ("RH", [90])] =
        .ok (some (mkScore [("GHI", [(1 : ℚ), 2, 3]), ("RH", [90])] [1, 2, 3])) ∧
      (0 ≤ (mkScore [("GHI", [(1 : ℚ), 2, 3]), ("RH", [90])] [1, 2, 3]).components.energy ∧
        (mkScore [("GHI", [(1 : ℚ), 2, 3]), ("RH", [90])] [1, 2, 3]).components.energy ≤ 40) ∧
      (0 ≤ (mkScore [("GHI", [(1 : ℚ), 2, 3]), ("RH", [90])] [1, 2, 3]).components.consistency ∧
        (mkScore [("GHI", [(1 : ℚ), 2, 3]), ("RH", [90])] [1, 2, 3]).components.consistency ≤ 30) := by
  have hstd : std [(1 : ℚ), 2, 3] = 1 := by
    have hv : var1 [(1 : ℚ), 2, 3] = 1 := by norm_num [var1, mean]
    rw [std, hv]; norm_num
  have hall : ∀ x ∈ [(1 : ℚ), 2, 3], 0 ≤ x := by
    intro x hx
    simp only [List.mem_cons, List.not_mem_nil, or_false] at hx
    rcases hx with rfl | rfl | rfl <;> norm_num
  have h : create_solar_score [("GHI", [(1 : ℚ), 2, 3]), ("RH", [90])] =
      .ok (some (mkScore [("GHI", [(1 : ℚ), 2, 3]), ("RH", [90])] [1, 2, 3])) :=
    (create_ok_some_iff _ _).mpr ⟨[1, 2, 3], rfl, by rw [hstd]; norm_num, rfl⟩
  have hc := C9_component_ceilings [("GHI", [(1 : ℚ), 2, 3]), ("RH", [90])] [1, 2, 3]
    (mkScore [("GHI", [(1 : ℚ), 2, 3]), ("RH", [90])] [1, 2, 3]) rfl hall h
  exact ⟨rfl, hall, h, hc.1, hc.2.1⟩


/-- C10 counterexample: the two-row numeric table `GHI = [-1000, 998]` is
scored (stddev is positive), yet its total score exceeds 100: the mean is
`-1`, so `std/mean` is very negative and the uncapped consistency raw value
far exceeds 100.  This refutes the claimed "total score strictly below
100" for arbitrary numeric `GHI` columns. -/
theorem C10_total_lt_100_counterexample :
    create_solar_score [("GHI", [(-1000 : ℚ), 998])] =
        .ok (some (mkScore [("GHI", [(-1000 : ℚ), 998])] [-1000, 998])) ∧
      100 < (mkScore [("GHI", [(-1000 : ℚ), 998])] [-1000, 998]).total_score := by
  have hvar : var1 [(-1000 : ℚ), 998] = 1996002 := by norm_num [var1, mean]
  have hmean : mean [(-1000 : ℚ), 998] = -1 := by norm_num [mean]
  have hstd2 : (2 : ℝ) ≤ std [(-1000 : ℚ), 998] := by
    rw [std, hvar]
    have h4 : (2 : ℝ) = Real.sqrt 4 := by
      rw [show (4 : ℝ) = 2 ^ 2 by norm_num]
      exact (Real.sqrt_sq (by norm_num)).symm
    rw [h4]
    apply Real.sqrt_le_sqrt
    norm_num
  have hpos : 0 < std [(-1000 : ℚ), 998] := lt_of_lt_of_le (by norm_num) hstd2
  have h : create_solar_score [("GHI", [(-1000 : ℚ), 998])] =
      .ok (some (mkScore [("GHI", [(-1000 : ℚ), 998])] [-1000, 998])) :=
    (create_ok_some_iff _ _).mpr ⟨[-1000, 998], rfl, hpos, rfl⟩
  refine ⟨h, ?_⟩
  have hE : energy_raw [(-1000 : ℚ), 998] / max (energy_raw [(-1000 : ℚ), 998]) 500 * 40 =
      -2 / 25 := by
    unfold energy_raw
    rw [hmean]
    norm_num
  have hR : reliability_raw [(-1000 : ℚ), 998] = 50 := by
    norm_num [reliability_raw, quantile70, interp70, List.insertionSort,
      List.orderedInsert, frac_gt, List.filter]
  have hW : weather_raw [("GHI", [(-1000 : ℚ), 998])] = 100 :=
    weather_raw_of_none _ rfl
  have hC : (300 : ℝ) ≤ consistency_raw [(-1000 : ℚ), 998] := by
    unfold consistency_raw
    rw [hmean]
    have harith : (1 - std [(-1000 : ℚ), 998] / (((-1 : ℚ) : ℚ) : ℝ)) * 100 =
        (1 + std [(-1000 : ℚ), 998]) * 100 := by
      push_cast
      ring
    rw [harith]
    have : (300 : ℝ) ≤ (1 + std [(-1000 : ℚ), 998]) * 100 := by nlinarith
    exact le_trans this (le_max_left _ _)
  show 100 <
    ((energy_raw [(-1000 : ℚ), 998] / max (energy_raw [(-1000 : ℚ), 998]) 500 * 40 : ℚ) : ℝ) +
      consistency_raw [(-1000 : ℚ), 998] / 100 * 30 +
      ((reliability_raw [(-1000 : ℚ), 998] / 100 * 20 : ℚ) : ℝ) +
      ((weather_raw [("GHI", [(-1000 : ℚ), 998])] / 100 * 10 : ℚ) : ℝ)
  rw [hE, hR, hW]
  push_cast
  nlinarith [hC]

/-- C10 (amended): for every non-empty table with a numeric `GHI` column of
`n` rows that the scorer accepts, the reliability raw score is at most
`100(n−1)/n`, hence strictly below 100, and the weighted reliability is
strictly below 20; the total score is strictly below 100 provided the `GHI`
values are additionally non-negative (with negative values the uncapped
consistency component can push the total past 100, see the
counterexample). -/
theorem C10_amended_reliability_bound (df : Frame) (ghi : List ℚ) (r : ScoreRecord)
    (hg : getCol df "GHI" = some ghi) (hne : ghi ≠ [])
    (hr : create_solar_score df = .ok (some r)) :
    r.raw_scores.reliability ≤ 100 * ((ghi.length : ℚ) - 1) / (ghi.length : ℚ) ∧
      r.raw_scores.reliability < 100 ∧
      r.components.reliability < 20 ∧
      ((∀ x ∈ ghi, 0 ≤ x) → r.total_score < 100) := by
  obtain ⟨g, hg2, -, rfl⟩ := (create_ok_some_iff df r).mp hr
  obtain rfl : ghi = g := by rw [hg] at hg2; exact Option.some_injective _ hg2
  have hrel_le := reliability_raw_le ghi hne
  have hrel_lt := reliability_raw_lt_100 ghi hne
  refine ⟨hrel_le, hrel_lt, ?_, ?_⟩
  · show reliability_raw ghi / 100 * 20 < 20
    nlinarith
  · intro hposall
    have hmean : 0 ≤ mean ghi := mean_nonneg_of_nonneg ghi hposall
    have hE : energy_raw ghi / max (energy_raw ghi) 500 * 40 ≤ 40 :=
      energy_weighted_le_40 ghi
    have hC : consistency_raw ghi ≤ 100 := consistency_raw_le_100 ghi hmean
    have hW : weather_raw df ≤ 100 := weather_raw_le_100 df
    show ((energy_raw ghi / max (energy_raw ghi) 500 * 40 : ℚ) : ℝ) +
        consistency_raw ghi / 100 * 30 +
        ((reliability_raw ghi / 100 * 20 : ℚ) : ℝ) +
        ((weather_raw df / 100 * 10 : ℚ) : ℝ) < 100
    have hEc : ((energy_raw ghi / max (energy_raw ghi) 500 * 40 : ℚ) : ℝ) ≤ 40 := by
      exact_mod_cast hE
    have hRc : ((reliability_raw ghi / 100 * 20 : ℚ) : ℝ) < 20 := by
      have : reliability_raw ghi / 100 * 20 < 20 := by nlinarith
      exact_mod_cast this
    have hWc : ((weather_raw df / 100 * 10 : ℚ) : ℝ) ≤ 10 := by
      have : weather_raw df / 100 * 10 ≤ 10 := by nlinarith
      exact_mod_cast this
    nlinarith [hC]

/-- Witness for the amended C10 at `GHI = [0, 2, 4]` (stddev 2, all values
non-negative). -/
theorem C10_amended_reliability_bound_witness :
    getCol [("GHI", [(0 : ℚ), 2, 4])] "GHI" = some [0, 2, 4] ∧
      ([(0 : ℚ), 2, 4] ≠ []) ∧
      create_solar_score [("GHI", [(0 : ℚ), 2, 4])] =
        .ok (some (mkScore [("GHI", [(0 : ℚ), 2, 4])] [0, 2, 4])) ∧
      (mkScore [("GHI", [(0 : ℚ), 2, 4])] [0, 2, 4]).raw_scores.reliability < 100 ∧
      (mkScore [("GHI", [(0 : ℚ), 2, 4])] [0, 2, 4]).components.reliability < 20 ∧
      (mkScore [("GHI", [(0 : ℚ), 2, 4])] [0, 2, 4]).total_score < 100 := by
  have hvar : var1 [(0 : ℚ), 2, 4] = 4 := by norm_num [var1, mean]
  have hstd : std [(0 : ℚ), 2, 4] = 2 := by
    rw [std, hvar]
    rw [show ((4 : ℚ) : ℝ) = 2 ^ 2 by norm_num]
    exact Real.sqrt_sq (by norm_num)
  have h : create_solar_score [("GHI", [(0 : ℚ), 2, 4])] =
      .ok (some (mkScore [("GHI", [(0 : ℚ), 2, 4])] [0, 2, 4])) :=
    (create_ok_some_iff _ _).mpr ⟨[0, 2, 4], rfl, by rw [hstd]; norm_num, rfl⟩
  have hall : ∀ x ∈ [(0 : ℚ), 2, 4], 0 ≤ x := by
    intro x hx
    simp only [List.mem_cons, List.not_mem_nil, or_false] at hx
    rcases hx with rfl | rfl | rfl <;> norm_num
  have hc := C10_amended_reliability_bound [("GHI", [(0 : ℚ), 2, 4])] [0, 2, 4]
    (mkScore [("GHI", [(0 : ℚ), 2, 4])] [0, 2, 4]) rfl (by simp) h
  exact ⟨rfl, by simp, h, hc.2.1, hc.2.2.1, hc.2.2.2 hall⟩

/-! ### Loader lemmas and claims -/

lemma findCol_eq_some_of_mem (cols : List (String × List Cell)) (name : String)
    (h : name ∈ cols.map Prod.fst) : ∃ cs, findCol cols name = some cs := by
  unfold findCol
  obtain ⟨p, hp, hfst⟩ := List.mem_map.mp h
  have hsome : (cols.find? (fun p => p.1 == name)).isSome := by
    rw [List.find?_isSome]
    exact ⟨p, hp, by simp [hfst]⟩
  obtain ⟨q, hq⟩ := Option.isSome_iff_exists.mp hsome
  exact ⟨q.2, by simp [hq]⟩

lemma chosen_timestamp_eq_of_mem (raw : RawTable)
    (hT : "Timestamp" ∈ raw.colNames) :
    chosen_timestamp raw = some "Timestamp" := by
  unfold chosen_timestamp timestamp_cols
  exact List.find?_cons_of_pos _ (by simpa using hT)

lemma find?_nameq_cons (a : String × List Cell) (l : List (String × List Cell))
    (q : String) :
    List.find? (fun p => p.1 == q) (a :: l) =
      if a.1 = q then some a else List.find? (fun p => p.1 == q) l := by
  by_cases h : a.1 = q
  · rw [if_pos h]
    exact List.find?_cons_of_pos _ (by simp [h])
  · rw [if_neg h]
    exact List.find?_cons_of_neg _ (by simp [h])

lemma find?_name_map_replace (cols : List (String × List Cell)) (name : String)
    (cs : List Cell) (q : String) (h : name ≠ q) :
    List.find? (fun p => p.1 == q)
        (cols.map (fun p => if p.1 == name then (name, cs) else p)) =
      List.find? (fun p => p.1 == q) cols := by
  induction cols with
  | nil => rfl
  | cons a l ih =>
    rw [List.map_cons, find?_nameq_cons, find?_nameq_cons]
    by_cases ha : a.1 = name
    · have hhead : (if (a.1 == name) = true then (name, cs) else a) = (name, cs) := by
        simp [ha]
      rw [hhead]
      rw [if_neg (show ¬ ((name, cs) : String × List Cell).1 = q from h)]
      rw [if_neg (show ¬ a.1 = q from by rw [ha]; exact h)]
      exact ih
    · have hhead : (if (a.1 == name) = true then (name, cs) else a) = a := by
        simp [ha]
      rw [hhead]
      by_cases hq2 : a.1 = q
      · rw [if_pos hq2, if_pos hq2]
      · rw [if_neg hq2, if_neg hq2]
        exact ih

lemma find?_name_append_singleton (cols : List (String × List Cell))
    (x : String × List Cell) (q : String) (h : x.1 ≠ q) :
    List.find? (fun p => p.1 == q) (cols ++ [x]) =
      List.find? (fun p => p.1 == q) cols := by
  rw [List.find?_append]
  have hnone : List.find? (fun p => p.1 == q) [x] = none := by
    rw [find?_nameq_cons, if_neg h]
    rfl
  rw [hnone, Option.or_none]

lemma findCol_setCol_of_ne (cols : List (String × List Cell)) (name : String)
    (cs : List Cell) (q : String) (h : name ≠ q) :
    findCol (setCol cols name cs) q = findCol cols q := by
  unfold setCol findCol
  split
  · rw [find?_name_map_replace cols name cs q h]
  · rw [find?_name_append_singleton cols (name, cs) q h]

lemma mem_map_fst_setCol (cols : List (String × List Cell)) (name : String)
    (cs : List Cell) (q : String) (hq : q ∈ cols.map Prod.fst) :
    q ∈ (setCol cols name cs).map Prod.fst := by
  unfold setCol
  split
  · have hmap : (cols.map (fun p => if p.1 == name then (name, cs) else p)).map Prod.fst =
        cols.map Prod.fst := by
      rw [List.map_map]
      apply List.map_congr_left
      intro p hp
      by_cases hpn : p.1 = name
      · simp [hpn]
      · simp [hpn]
    rw [hmap]
    exact hq
  · rw [List.map_append]
    exact List.mem_append_left _ hq

lemma findCol_filter_self (cols : List (String × List Cell)) (c : String) :
    findCol (cols.filter (fun p => !(p.1 == c))) c = none := by
  unfold findCol
  rw [List.find?_eq_none.mpr]
  · rfl
  · intro x hx
    have := (List.mem_filter.mp hx).2
    simp_all


lemma load_data_body_parsed (raw : RawTable) :
    load_data_body (.parsed raw) =
      match set_time_index raw with
      | Except.error e => Except.error e
      | Except.ok t =>
        match t.index.hour, t.index.month, t.index.dayofweek with
        | Except.ok hs, Except.ok ms, Except.ok ds =>
          Except.ok { index := t.index
                      cols := setCol
                                (setCol
                                  (setCol t.cols "Hour" (hs.map (fun z => Cell.num z)))
                                  "Month" (ms.map (fun z => Cell.num z)))
                                "DayOfWeek" (ds.map (fun z => Cell.num z)) }
        | Except.error e, _, _ => Except.error e
        | _, Except.error e, _ => Except.error e
        | _, _, Except.error e => Except.error e := rfl

lemma set_time_index_chosen_ok (raw : RawTable) (c : String) (cells : List Cell)
    (ds : List DT) (hch : chosen_timestamp raw = some c)
    (hcells : findCol raw.cols c = some cells) (hdt : to_datetime cells = .ok ds) :
    set_time_index raw =
      .ok { index := .datetime ds
            cols := raw.cols.filter (fun p => !(p.1 == c)) } := by
  unfold set_time_index
  rw [hch]
  simp only [hcells, Option.getD_some, hdt]

lemma set_time_index_chosen_err (raw : RawTable) (c : String) (cells : List Cell)
    (e : String) (hch : chosen_timestamp raw = some c)
    (hcells : findCol raw.cols c = some cells) (hdt : to_datetime cells = .error e) :
    set_time_index raw = .error e := by
  unfold set_time_index
  rw [hch]
  simp only [hcells, Option.getD_some, hdt]

lemma load_data_body_chosen_ok (raw : RawTable) (c : String) (cells : List Cell)
    (ds : List DT) (hch : chosen_timestamp raw = some c)
    (hcells : findCol raw.cols c = some cells) (hdt : to_datetime cells = .ok ds) :
    load_data_body (.parsed raw) =
      .ok { index := .datetime ds
            cols := setCol
                      (setCol
                        (setCol (raw.cols.filter (fun p => !(p.1 == c)))
                          "Hour" ((ds.map DT.hour).map (fun z => Cell.num z)))
                        "Month" ((ds.map DT.month).map (fun z => Cell.num z)))
                      "DayOfWeek" ((ds.map DT.dayofweek).map (fun z => Cell.num z)) } := by
  rw [load_data_body_parsed, set_time_index_chosen_ok raw c cells ds hch hcells hdt]
  rfl

lemma load_data_body_chosen_err (raw : RawTable) (c : String) (cells : List Cell)
    (e : String) (hch : chosen_timestamp raw = some c)
    (hcells : findCol raw.cols c = some cells) (hdt : to_datetime cells = .error e) :
    load_data_body (.parsed raw) = .error e := by
  rw [load_data_body_parsed, set_time_index_chosen_err raw c cells e hch hcells hdt]

lemma load_data_body_no_timestamp (raw : RawTable)
    (hch : chosen_timestamp raw = none) :
    load_data_body (.parsed raw) = .error range_index_hour_error := by
  have hset : set_time_index raw =
      .ok { index := .range raw.nrows, cols := raw.cols } := by
    unfold set_time_index
    rw [hch]
  rw [load_data_body_parsed, hset]
  rfl


/-- C6: `load_data` is total and always returns a pair: on success the
enriched table with the row/column-count message, and on any ingestion
failure the null table with a message embedding the error detail — no
exception propagates to the caller. -/
theorem C6_load_data_total (f : UploadedFile) :
    (∃ t, load_data f =
        (some t, "Successfully loaded " ++ toString t.len ++ " rows with " ++
          toString t.cols.length ++ " columns")) ∨
      (∃ e, load_data f = (none, "Error loading file: " ++ e)) := by
  unfold load_data
  cases h : load_data_body f with
  | ok t => exact .inl ⟨t, rfl⟩
  | error e => exact .inr ⟨e, rfl⟩

/-- C5 counterexample: a well-formed CSV with no timestamp-like column
(here a single `GHI` column) does not degrade to a table on the synthetic
positional index: deriving `Hour` from the `RangeIndex` raises an
attribute error and the catch-all turns it into the null-table failure
result, contradicting the claimed non-null table. -/
theorem C5_no_timestamp_counterexample :
    load_data (.parsed ⟨2, [("GHI", [Cell.num 1, Cell.num 2])]⟩) =
      (none, "Error loading file: " ++ range_index_hour_error) := by decide

/-- C5 (amended): for every well-formed CSV containing none of the six
timestamp-like column names, the table keeps the synthetic positional
index only inside the `try` block: the `Hour` derivation on that index
raises, and `load_data` returns the null table together with the
attribute-error message rather than a usable table. -/
theorem C5_amended_no_timestamp_fails (raw : RawTable)
    (h : ∀ c ∈ timestamp_cols, c ∉ raw.colNames) :
    load_data (.parsed raw) =
      (none, "Error loading file: " ++ range_index_hour_error) := by
  have hch : chosen_timestamp raw = none := by
    unfold chosen_timestamp
    rw [List.find?_eq_none]
    intro c hc
    simpa using h c hc
  unfold load_data
  rw [load_data_body_no_timestamp raw hch]

/-- Witness for the amended C5 at a one-column table named `x`. -/
theorem C5_amended_no_timestamp_fails_witness :
    (∀ c ∈ timestamp_cols, c ∉ (RawTable.mk 1 [("x", [Cell.num 5])]).colNames) ∧
      load_data (.parsed ⟨1, [("x", [Cell.num 5])]⟩) =
        (none, "Error loading file: " ++ range_index_hour_error) := by
  have h : ∀ c ∈ timestamp_cols, c ∉ (RawTable.mk 1 [("x", [Cell.num 5])]).colNames := by
    decide
  exact ⟨h, C5_amended_no_timestamp_fails _ h⟩

/-- One step of the candidate scan: on a cons the scan takes the head
when it is a column of the table, else continues down the list. -/
lemma find?_contains_cons (names : List String) (a : String) (l : List String) :
    List.find? (fun c => names.contains c) (a :: l) =
      if a ∈ names then some a else List.find? (fun c => names.contains c) l := by
  by_cases h : a ∈ names
  · rw [if_pos h]
    exact List.find?_cons_of_pos _ (by simpa using h)
  · rw [if_neg h]
    exact List.find?_cons_of_neg _ (by simpa using h)

/-- The candidate scan, fully evaluated over the literal six-name list:
for every table it selects exactly the first present name in the order
`Timestamp`, `timestamp`, `Date`, `date`, `Time`, `time`. -/
lemma chosen_timestamp_priority_chain (raw : RawTable) :
    chosen_timestamp raw =
      if "Timestamp" ∈ raw.colNames then some "Timestamp"
      else if "timestamp" ∈ raw.colNames then some "timestamp"
      else if "Date" ∈ raw.colNames then some "Date"
      else if "date" ∈ raw.colNames then some "date"
      else if "Time" ∈ raw.colNames then some "Time"
      else if "time" ∈ raw.colNames then some "time"
      else none := by
  simp only [chosen_timestamp, timestamp_cols, find?_contains_cons, List.find?_nil]

/-- C7: for every input table, the candidate scan follows the fixed
priority order `Timestamp`, `timestamp`, `Date`, `date`, `Time`, `time` —
the first name present is selected (first conjunct, an if-chain over the
six names that holds for the given table like any other); and whenever the
load succeeds, that first-present column is parsed as a datetime, promoted
to the table's ordering index, and removed from the regular column set,
while every other original column name stays.  In particular, when both
`Timestamp` and `Date` are present, `Timestamp` is selected. -/
theorem C7_timestamp_priority (raw : RawTable) (t : Table) (m : String)
    (hload : load_data (.parsed raw) = (some t, m)) :
    (chosen_timestamp raw =
      if "Timestamp" ∈ raw.colNames then some "Timestamp"
      else if "timestamp" ∈ raw.colNames then some "timestamp"
      else if "Date" ∈ raw.colNames then some "Date"
      else if "date" ∈ raw.colNames then some "date"
      else if "Time" ∈ raw.colNames then some "Time"
      else if "time" ∈ raw.colNames then some "time"
      else none) ∧
    ∃ c cells ds,
      chosen_timestamp raw = some c ∧
      findCol raw.cols c = some cells ∧
      to_datetime cells = .ok ds ∧
      t.index = .datetime ds ∧
      findCol t.cols c = none ∧
      ∀ q ∈ raw.colNames, q ≠ c → q ∈ t.cols.map Prod.fst := by
  refine ⟨chosen_timestamp_priority_chain raw, ?_⟩
  cases hch : chosen_timestamp raw with
  | none =>
    rw [load_data, load_data_body_no_timestamp raw hch] at hload
    simp at hload
  | some c =>
    have hcmem_names : c ∈ raw.colNames := by
      have hp := List.find?_some hch
      simpa using hp
    have hc_cand : c ∈ timestamp_cols := List.mem_of_find?_eq_some hch
    obtain ⟨cells, hcells⟩ := findCol_eq_some_of_mem raw.cols c hcmem_names
    cases hdt : to_datetime cells with
    | error e =>
      rw [load_data, load_data_body_chosen_err raw c cells e hch hcells hdt] at hload
      simp at hload
    | ok ds =>
      rw [load_data, load_data_body_chosen_ok raw c cells ds hch hcells hdt] at hload
      simp only [Prod.mk.injEq, Option.some.injEq] at hload
      obtain ⟨ht, -⟩ := hload
      subst ht
      have hne : "Hour" ≠ c ∧ "Month" ≠ c ∧ "DayOfWeek" ≠ c := by
        simp only [timestamp_cols, List.mem_cons, List.not_mem_nil, or_false] at hc_cand
        rcases hc_cand with rfl | rfl | rfl | rfl | rfl | rfl <;>
          exact ⟨by decide, by decide, by decide⟩
      refine ⟨c, cells, ds, rfl, hcells, hdt, rfl, ?_, ?_⟩
      · rw [findCol_setCol_of_ne _ _ _ _ hne.2.2, findCol_setCol_of_ne _ _ _ _ hne.2.1,
          findCol_setCol_of_ne _ _ _ _ hne.1]
        exact findCol_filter_self raw.cols c
      · intro q hq hqc
        apply mem_map_fst_setCol
        apply mem_map_fst_setCol
        apply mem_map_fst_setCol
        obtain ⟨p, hp, hfst⟩ := List.mem_map.mp (show q ∈ raw.cols.map Prod.fst from hq)
        apply List.mem_map.mpr
        refine ⟨p, List.mem_filter.mpr ⟨hp, ?_⟩, hfst⟩
        simp [hfst, hqc]

/-- Witness for C7 at a concrete table with `Timestamp`, `Date` and `GHI`
columns: the load succeeds, `Timestamp` is selected, promoted and removed,
and `Date` remains a regular column. -/
theorem C7_timestamp_priority_witness :
    (load_data (.parsed (RawTable.mk 1
        [("Timestamp", [Cell.dt ⟨6, 1, 0⟩]), ("Date", [Cell.dt ⟨0, 1, 0⟩]),
          ("GHI", [Cell.num 45])])) =
      (some (Table.mk (.datetime [⟨6, 1, 0⟩])
        [("Date", [Cell.dt ⟨0, 1, 0⟩]), ("GHI", [Cell.num 45]),
          ("Hour", [Cell.num 6]), ("Month", [Cell.num 1]),
          ("DayOfWeek", [Cell.num 0])]),
        "Successfully loaded 1 rows with 5 columns")) ∧
      chosen_timestamp (RawTable.mk 1
        [("Timestamp", [Cell.dt ⟨6, 1, 0⟩]), ("Date", [Cell.dt ⟨0, 1, 0⟩]),
          ("GHI", [Cell.num 45])]) = some "Timestamp" ∧
      findCol (Table.mk (.datetime [⟨6, 1, 0⟩])
          [("Date", [Cell.dt ⟨0, 1, 0⟩]), ("GHI", [Cell.num 45]),
            ("Hour", [Cell.num 6]), ("Month", [Cell.num 1]),
            ("DayOfWeek", [Cell.num 0])]).cols "Timestamp" = none ∧
      "Date" ∈ (Table.mk (.datetime [⟨6, 1, 0⟩])
          [("Date", [Cell.dt ⟨0, 1, 0⟩]), ("GHI", [Cell.num 45]),
            ("Hour", [Cell.num 6]), ("Month", [Cell.num 1]),
            ("DayOfWeek", [Cell.num 0])]).cols.map Prod.fst := by
  have hload : load_data (.parsed (RawTable.mk 1
      [("Timestamp", [Cell.dt ⟨6, 1, 0⟩]), ("Date", [Cell.dt ⟨0, 1, 0⟩]),
        ("GHI", [Cell.num 45])])) =
      (some (Table.mk (.datetime [⟨6, 1, 0⟩])
        [("Date", [Cell.dt ⟨0, 1, 0⟩]), ("GHI", [Cell.num 45]),
          ("Hour", [Cell.num 6]), ("Month", [Cell.num 1]),
          ("DayOfWeek", [Cell.num 0])]),
        "Successfully loaded 1 rows with 5 columns") := by decide
  have hc := C7_timestamp_priority _ _ _ hload
  have hchain : chosen_timestamp (RawTable.mk 1
      [("Timestamp", [Cell.dt ⟨6, 1, 0⟩]), ("Date", [Cell.dt ⟨0, 1, 0⟩]),
        ("GHI", [Cell.num 45])]) = some "Timestamp" := by
    rw [hc.1]
    decide
  obtain ⟨c, cells, ds, hch, hcells, hdt, hidx, hrm, hpres⟩ := hc.2
  obtain rfl : c = "Timestamp" := by
    have hsc := hchain.symm.trans hch
    exact ((Option.some.injEq _ _).mp hsc).symm
  exact ⟨hload, hchain, hrm, hpres "Date" (by decide) (by decide)⟩

end SolarApp
